import Mathlib

/-!
# Verification of the CSV record store in pihiwatari/rhino6-py-scripts

Shallow embedding of the CSV bookkeeping logic (`csv_crud.py` in its two
copies) and of the CSV-affecting part of the per-iteration loop body of the
two copies of the `ExportToCNC` command, together with the extension
selection and filename construction of the export commands.

Modelling conventions:
* A parsed CSV file is a header row plus the list of data records, each a
  list of string cells (`csv.DictReader` skips blank lines, so records are
  the non-blank rows of the file).
* A Python dict (the `data_dict` produced by `create_data_dict` and handed
  to the CRUD functions) is an association list from string keys to values;
  a value is `Option String` where `Option.none` stands for Python `None`.
* `csv.DictReader` row access `row[k]` raises `KeyError` when `k` is not a
  field name and yields `restval = None` for a trailing cell the record is
  missing; `csv.DictWriter` (default arguments) raises `ValueError` when a
  dict contains a key outside `fieldnames`, substitutes `restval = ''` for
  a missing key, and serialises a `None` value as the empty cell.
* Exceptions are modelled as strings naming the Python exception class; a
  stateful function returns the file contents at the path together with
  `Option.some e` when the exception `e` propagates out of it.
* An `IOError` raised by `open` is modelled by a boolean `ioFail` argument
  (the file at the path being unreadable/unwritable); functions reading a
  file through `Except` take the result of `open` as an argument instead.
-/

/-- One CSV record: the list of its string cells. -/
abbrev Row := List String

/-- A parsed CSV file: the header row and the data records in file order. -/
structure CsvFile where
  header : List String
  rows : List Row
deriving DecidableEq, Repr

/-- A Python exception, named by its class. -/
abbrev PyExc := String

/-- A Python dict with string keys; a value is `Option.none` for `None`. -/
abbrev PyDict := List (String × Option String)

/-- Python dict lookup `d[k]`: `Option.none` models a `KeyError`. -/
def dictGet? (d : PyDict) (k : String) : Option (Option String) :=
  (d.find? (fun p => p.1 == k)).map Prod.snd

/-- Python `dict.update`: values of keys present in `new` are overwritten in
place, keys only in `new` are appended in their order. -/
def dictUpdate (d new : PyDict) : PyDict :=
  (d.map (fun p =>
    match dictGet? new p.1 with
    | Option.some v => (p.1, v)
    | Option.none => p))
  ++ new.filter (fun p => decide (dictGet? d p.1 = Option.none))

/-- Python dict item assignment `d[k] = v`. -/
def dictSet (d : PyDict) (k : String) (v : Option String) : PyDict :=
  dictUpdate d [(k, v)]

/-- The `csv_headers` list of `src/csv_crud.py` (the root copy). -/
def csv_headers : List String := [
  "Row",
  "Flex Customer",
  "Site",
  "Building",
  "ID",
  "Product",
  "Requester",
  "Empty1",
  "Empty2",
  "Material",
  "Designer",
  "Sizes",
  "Quantity",
  "Empty3",
  "Empty4",
  "Empty5",
  "Empty6",
  "Empty7",
  "Empty8",
  "File Path",
  "File name",
  "Special details"]

/-- The `csv_headers` list of the dev copy
`src/Export to CNC {...}/dev/csv_crud.py`. -/
def csv_headers_dev : List String := [
  "Row",
  "Flex Customer",
  "Site",
  "Building",
  "ID ATC",
  "Model or customer ID",
  "Product",
  "File name",
  "Requester",
  "Empty1",
  "Empty2",
  "Material",
  "Designer",
  "Sizes",
  "Quantity",
  "Type",
  "Empty3",
  "Empty4",
  "Empty5",
  "Empty6",
  "Empty7",
  "Empty8",
  "Empty9",
  "Empty10",
  "Empty11",
  "File Path",
  "Special details"]

/-- Field access `row[k]` of `csv.DictReader`: `KeyError` when `k` is not among
the field names, otherwise the cell at the position of `k` in the header
(`restval = None`, i.e. `Option.none`, when the record is shorter). -/
def rowField (header : List String) (r : Row) (k : String) :
    Except PyExc (Option String) :=
  match header.findIdx? (fun h => h == k) with
  | Option.none => Except.error "KeyError"
  | Option.some i => Except.ok r[i]?

/-- The value `rowField` yields when the column exists (total version,
used to state properties; `Option.none` both for a missing trailing cell
and for a missing column). -/
def fieldOf (header : List String) (r : Row) (k : String) : Option String :=
  match header.findIdx? (fun h => h == k) with
  | Option.none => Option.none
  | Option.some i => r[i]?

/-- The dict `csv.DictReader` builds for one record: field names paired
with the cells, missing trailing cells filled with `restval = None`. -/
def readRow : List String → Row → PyDict
  | [], _ => []
  | h :: hs, [] => (h, Option.none) :: readRow hs []
  | h :: hs, c :: cs => (h, Option.some c) :: readRow hs cs

/-- Serialisation of one dict value into a CSV cell by `csv.DictWriter`:
a missing key takes `restval = ''` and a `None` value is written as `''`. -/
def serializeCell : Option (Option String) → String
  | Option.some (Option.some s) => s
  | Option.some Option.none => ""
  | Option.none => ""

/-- The cells `csv.DictWriter.writerow` emits for a dict, in field order. -/
def cellsOf (fieldnames : List String) (d : PyDict) : Row :=
  fieldnames.map (fun h => serializeCell (dictGet? d h))

/-- Embedding of `csv.DictWriter.writerow` (default `extrasaction =
'raise'`): a key of
the dict outside the field names raises `ValueError` before anything is
written, otherwise one record with the serialised values is emitted. -/
def writeDictRow (fieldnames : List String) (d : PyDict) : Except PyExc Row :=
  if d.all (fun p => fieldnames.contains p.1) then
    Except.ok (cellsOf fieldnames d)
  else
    Except.error "ValueError"

/-- Value of a decimal digit character. -/
def digitVal? (c : Char) : Option Nat :=
  if c = '0' then Option.some 0
  else if c = '1' then Option.some 1
  else if c = '2' then Option.some 2
  else if c = '3' then Option.some 3
  else if c = '4' then Option.some 4
  else if c = '5' then Option.some 5
  else if c = '6' then Option.some 6
  else if c = '7' then Option.some 7
  else if c = '8' then Option.some 8
  else if c = '9' then Option.some 9
  else Option.none

/-- A nonempty all-digit character list read as a decimal number. -/
def decNat? (cs : List Char) : Option Nat :=
  match cs with
  | [] => Option.none
  | _ =>
    cs.foldl (fun acc c =>
      match acc, digitVal? c with
      | Option.some n, Option.some dv => Option.some (n * 10 + dv)
      | _, _ => Option.none) (Option.some 0)

/-- Python `int(v)` on a stored value: `None` raises `TypeError`; a string
converts exactly when it is an optionally signed decimal numeral
(surrounding whitespace is not modelled). -/
def pyInt (v : Option String) : Option Int :=
  match v with
  | Option.none => Option.none
  | Option.some s =>
    match s.data with
    | '-' :: cs => (decNat? cs).map (fun n => -(n : Int))
    | '+' :: cs => (decNat? cs).map (fun n => (n : Int))
    | cs => (decNat? cs).map (fun n => (n : Int))

/-- Embedding of `create_new_csv` of `src/csv_crud.py`: if a file already exists at the
path it only prints and returns; otherwise it writes a new file holding
exactly the `csv_headers` row (an `IOError` of the write is caught and
printed). Identical in both copies up to the header list, which is passed
as the `headers` argument. -/
def create_new_csv_with (headers : List String) (fs : Option CsvFile)
    (ioFail : Bool) : Option CsvFile × Option PyExc :=
  match fs with
  | Option.some f => (Option.some f, Option.none)
  | Option.none =>
    if ioFail then (Option.none, Option.none)
    else (Option.some ⟨headers, []⟩, Option.none)

/-- The root copy of `create_new_csv`. -/
def create_new_csv (fs : Option CsvFile) (ioFail : Bool) :
    Option CsvFile × Option PyExc :=
  create_new_csv_with csv_headers fs ioFail

/-- The dev copy of `create_new_csv`. -/
def create_new_csv_dev (fs : Option CsvFile) (ioFail : Bool) :
    Option CsvFile × Option PyExc :=
  create_new_csv_with csv_headers_dev fs ioFail

/-- The scan of `get_row_index` (both copies, identical code): walk the
records with a counter, return `-1` on the first record whose
`'File name'` field equals `name`, else the final counter value. -/
def get_row_index_go (header : List String) (name : Option String) :
    List Row → Int → Except PyExc Int
  | [], c => Except.ok c
  | r :: rs, c =>
    match rowField header r "File name" with
    | Except.error e => Except.error e
    | Except.ok v =>
      if v = name then Except.ok (-1)
      else get_row_index_go header name rs (c + 1)

/-- Embedding of `get_row_index` on the parsed contents of the file (the body of the
`with open` block; there is no `try`/`except` in this function). -/
def get_row_index (f : CsvFile) (name : Option String) : Except PyExc Int :=
  get_row_index_go f.header name f.rows 0

/-- Embedding of `get_row_index` including the `open` call: an `IOError` of `open`
propagates to the caller, since the function has no exception handler. -/
def get_row_index_io (openResult : Except PyExc CsvFile)
    (name : Option String) : Except PyExc Int :=
  match openResult with
  | Except.error e => Except.error e
  | Except.ok f => get_row_index f name

/-- Embedding of `read_project_data` of the root copy: `next(reader)` on the first data
record; `IOError` is caught and printed, leaving the implicit `None`
return; a `StopIteration` of an empty reader propagates. -/
def read_project_data (openResult : Except PyExc CsvFile) :
    Except PyExc (Option PyDict) :=
  match openResult with
  | Except.error _ => Except.ok Option.none
  | Except.ok f =>
    match f.rows with
    | [] => Except.error "StopIteration"
    | r :: _ => Except.ok (Option.some (readRow f.header r))

/-- Embedding of `read_project_data` of the dev copy: identical, except that the caught
`IOError` is re-raised (`raise (e)`) after printing. -/
def read_project_data_dev (openResult : Except PyExc CsvFile) :
    Except PyExc (Option PyDict) :=
  match openResult with
  | Except.error e => Except.error e
  | Except.ok f =>
    match f.rows with
    | [] => Except.error "StopIteration"
    | r :: _ => Except.ok (Option.some (readRow f.header r))

/-- Embedding of `add_data_row` of the root copy: open the file in append mode (an
`IOError` is caught and printed, leaving the file untouched) and emit one
record for `data_dict` with `fieldnames = csv_headers`; appending leaves
the header and all earlier records unchanged. A `ValueError` of
`writerow` is not an `IOError` and propagates, with nothing written. -/
def add_data_row (ioFail : Bool) (f : CsvFile) (data_dict : PyDict) :
    CsvFile × Option PyExc :=
  if ioFail then (f, Option.none)
  else
    match writeDictRow csv_headers data_dict with
    | Except.error e => (f, Option.some e)
    | Except.ok row => (⟨f.header, f.rows ++ [row]⟩, Option.none)

/-- Embedding of `add_data_row` of the dev copy: before the `try` block it destructures
`data_dict["File name"]`, `data_dict["Material"]` and
`int(data_dict["Quantity"])`; a `KeyError` or a failing `int` conversion
raises before the file is opened for writing. Then as the root copy, with
`fieldnames = csv_headers_dev`. -/
def add_data_row_dev (ioFail : Bool) (f : CsvFile) (data_dict : PyDict) :
    CsvFile × Option PyExc :=
  match dictGet? data_dict "File name" with
  | Option.none => (f, Option.some "KeyError")
  | Option.some _ =>
  match dictGet? data_dict "Material" with
  | Option.none => (f, Option.some "KeyError")
  | Option.some _ =>
  match dictGet? data_dict "Quantity" with
  | Option.none => (f, Option.some "KeyError")
  | Option.some q =>
  match pyInt q with
  | Option.none => (f, Option.some "TypeError")
  | Option.some _ =>
    if ioFail then (f, Option.none)
    else
      match writeDictRow csv_headers_dev data_dict with
      | Except.error e => (f, Option.some e)
      | Except.ok row => (⟨f.header, f.rows ++ [row]⟩, Option.none)

/-- The rewrite loop of `update_data_row` (identical in both copies): each
record is read back as a dict, updated with `new_data` when its
`'File name'` field equals `name`, and written with
`fieldnames = headers`; a record longer than the header puts its extra
cells under `restkey = None`, which `writerow` rejects with `ValueError`.
An exception aborts the loop, leaving only the records written so far. -/
def update_rows (header : List String) (name : Option String)
    (new_data : PyDict) : List Row → List Row × Option PyExc
  | [] => ([], Option.none)
  | r :: rs =>
    match rowField header r "File name" with
    | Except.error e => ([], Option.some e)
    | Except.ok v =>
      if header.length < r.length then ([], Option.some "ValueError")
      else
        let d := readRow header r
        let updated := if v = name then dictUpdate d new_data else d
        match writeDictRow header updated with
        | Except.error e => ([], Option.some e)
        | Except.ok out =>
          match update_rows header name new_data rs with
          | (outs, exc) => (out :: outs, exc)

/-- Embedding of `update_data_row` (identical in both copies): read all records, then
truncate the file and rewrite the header followed by every record, with
the records keyed by `name` merged with `new_data`. Only `IOError` is
caught (and printed); an `IOError` of either `open` leaves the records
unchanged. -/
def update_data_row (ioFail : Bool) (f : CsvFile) (name : Option String)
    (new_data : PyDict) : CsvFile × Option PyExc :=
  if ioFail then (f, Option.none)
  else
    match update_rows f.header name new_data f.rows with
    | (outs, exc) => (⟨f.header, outs⟩, exc)

/-- The `extension_dict` of the dev `get_export_extension`. -/
def extension_dict : List (String × String) :=
  [("DXF", ".dxf"), ("STEP", ".step"), ("3MF", ".3mf"), ("STL", ".stl")]

/-- Embedding of `get_export_extension` of the dev command: the user picks one of the
dictionary keys in a combo box (`Option.none` models cancelling) and the
mapped extension string is returned. -/
def get_export_extension (selection : Option String) : Option String :=
  match selection with
  | Option.none => Option.none
  | Option.some s => (extension_dict.find? (fun p => p.1 == s)).map Prod.snd

/-- Embedding of `create_filename` of the root command:
`"{}_{}.stp".format(project_name, geo_name)`. -/
def create_filename (project_name geo_name : String) : String :=
  project_name ++ "_" ++ geo_name ++ ".stp"

/-- Embedding of `create_filename` of the dev command after its regex step: the source
extracts `cleaned_project_name` from the project name with the regex
`(DM-\w{3}\d{2}-\d{6})` (taken here as given) and returns
`"{}_{}{}".format(cleaned_project_name, geo_name, extension)`. -/
def create_filename_dev (cleaned_project_name geo_name extension : String) :
    String :=
  cleaned_project_name ++ "_" ++ geo_name ++ extension

/-- Whether the string `s` ends in the string `suffix`. -/
def strEndsWith (s suffix : String) : Bool :=
  List.isSuffixOf suffix.data s.data

/-- Which CSV writing operation a loop pass performed. -/
inductive CsvAction where
  | append
  | update
deriving DecidableEq, Repr

/-- Outcome of the CSV-affecting part of one export-loop pass: the file
contents afterwards, a propagating exception if any, and which writing
operation was reached. -/
structure IterResult where
  file : CsvFile
  exc : Option PyExc
  action : Option CsvAction
deriving DecidableEq, Repr

/-- The CSV-affecting part of one pass of the export loop in the root
`RunCommand` (`src/ExportToCNC_cmd.py` lines 140-170): `get_row_index` is
called without a name, the dictionary is filled (`Row`, `Sizes`,
`File name`, `Material`, `Quantity`), and `add_data_row` is called
unconditionally; `update_data_row` is never called. An exception of
`get_row_index` aborts the pass. -/
def runIteration_root (f : CsvFile) (data_dict : PyDict) (dims : String)
    (filename : String) (material quantity : Option String) : IterResult :=
  match get_row_index f Option.none with
  | Except.error e => ⟨f, Option.some e, Option.none⟩
  | Except.ok idx =>
    let d := dictSet data_dict "Row" (Option.some (toString idx))
    let d := dictSet d "Sizes" (Option.some dims)
    let d := dictSet d "File name" (Option.some filename)
    let d := dictSet d "Material" material
    let d := dictSet d "Quantity" quantity
    match add_data_row false f d with
    | (fOut, exc) => ⟨fOut, exc, Option.some CsvAction.append⟩

/-- The CSV-affecting part of one pass of the export loop in the dev
`RunCommand` (`dev/ExportToCNC_cmd.py` lines 324-357): the dictionary is
filled (`Sizes`, `File name`, `Material`, `Quantity`, `Type`),
`get_row_index` is called with the derived filename, and its result
decides: on `-1` the record is updated in place via `update_data_row`, and
no row is appended; otherwise `Row` is set to the returned index and
`add_data_row` appends a new record. -/
def runIteration_dev (f : CsvFile) (data_dict : PyDict)
    (dims filename material quantity ptype : String) : IterResult :=
  let d := dictSet data_dict "Sizes" (Option.some dims)
  let d := dictSet d "File name" (Option.some filename)
  let d := dictSet d "Material" (Option.some material)
  let d := dictSet d "Quantity" (Option.some quantity)
  let d := dictSet d "Type" (Option.some ptype)
  match get_row_index f (Option.some filename) with
  | Except.error e => ⟨f, Option.some e, Option.none⟩
  | Except.ok idx =>
    if idx = -1 then
      match update_data_row false f (Option.some filename) d with
      | (fOut, exc) => ⟨fOut, exc, Option.some CsvAction.update⟩
    else
      match add_data_row_dev false f
          (dictSet d "Row" (Option.some (toString idx))) with
      | (fOut, exc) => ⟨fOut, exc, Option.some CsvAction.append⟩

/-! ## Lemmas about dict lookup -/

theorem dictGet?_cons (k0 : String) (v : Option String) (d : PyDict)
    (k : String) :
    dictGet? ((k0, v) :: d) k =
      if k0 == k then Option.some v else dictGet? d k := by
  cases h : (k0 == k) <;> simp [dictGet?, List.find?, h]

theorem dictGet?_append (A B : PyDict) (k : String) :
    dictGet? (A ++ B) k = (dictGet? A k).or (dictGet? B k) := by
  unfold dictGet?
  rw [List.find?_append]
  cases List.find? (fun p => p.1 == k) A <;> simp

theorem dictGet?_map_update (d nd : PyDict) (k : String) :
    dictGet? (d.map (fun p =>
      match dictGet? nd p.1 with
      | Option.some v => (p.1, v)
      | Option.none => p)) k =
    (dictGet? d k).map (fun v =>
      match dictGet? nd k with
      | Option.some w => w
      | Option.none => v) := by
  induction d with
  | nil => rfl
  | cons p d ih =>
    obtain ⟨k0, v0⟩ := p
    by_cases h : k0 = k
    · subst h
      cases hnd : dictGet? nd k0 <;>
        simp [hnd, dictGet?_cons, List.map_cons]
    · have hb : (k0 == k) = false := by simp [h]
      cases hnd : dictGet? nd k0 <;>
        simp [hnd, dictGet?_cons, List.map_cons, hb, ih]

theorem dictGet?_filter_not_mem (d nd : PyDict) (k : String)
    (h : dictGet? d k = Option.none) :
    dictGet? (nd.filter (fun p => decide (dictGet? d p.1 = Option.none))) k =
      dictGet? nd k := by
  induction nd with
  | nil => rfl
  | cons q nd ih =>
    obtain ⟨k0, v0⟩ := q
    by_cases hk : k0 = k
    · subst hk
      rw [List.filter_cons]
      simp only [h, decide_eq_true_eq]
      simp [dictGet?_cons]
    · have hb : (k0 == k) = false := by simp [hk]
      rw [List.filter_cons]
      by_cases hcond : dictGet? d k0 = Option.none
      · simp [hcond, dictGet?_cons, hb, ih]
      · simp [hcond, dictGet?_cons, hb, ih]

theorem dictGet?_dictUpdate (d nd : PyDict) (k : String) :
    dictGet? (dictUpdate d nd) k =
      match dictGet? nd k with
      | Option.some v => Option.some v
      | Option.none => dictGet? d k := by
  unfold dictUpdate
  rw [dictGet?_append, dictGet?_map_update]
  cases hd : dictGet? d k with
  | some v =>
    cases hnd : dictGet? nd k <;> simp [hnd]
  | none =>
    rw [dictGet?_filter_not_mem d nd k hd]
    cases hnd : dictGet? nd k <;> simp [hnd]

theorem dictGet?_dictSet_self (d : PyDict) (k : String) (v : Option String) :
    dictGet? (dictSet d k v) k = Option.some v := by
  simp [dictSet, dictGet?_dictUpdate, dictGet?_cons]

theorem dictGet?_dictSet_of_ne (d : PyDict) (k : String) (v : Option String)
    (k2 : String) (h : k ≠ k2) :
    dictGet? (dictSet d k v) k2 = dictGet? d k2 := by
  have hb : (k == k2) = false := by simp [h]
  unfold dictSet
  rw [dictGet?_dictUpdate]
  simp [dictGet?_cons, hb, dictGet?]

theorem dictUpdate_all_keys (P : String → Bool) (d nd : PyDict)
    (hd : ∀ p ∈ d, P p.1 = true) (hnd : ∀ p ∈ nd, P p.1 = true) :
    ∀ p ∈ dictUpdate d nd, P p.1 = true := by
  intro p hp
  unfold dictUpdate at hp
  rcases List.mem_append.mp hp with h | h
  · obtain ⟨q, hq, hgq⟩ := List.mem_map.mp h
    have hkey : p.1 = q.1 := by
      cases hnd2 : dictGet? nd q.1 <;> simp [hnd2] at hgq <;>
        simp [← hgq]
    rw [hkey]
    exact hd q hq
  · exact hnd p (List.mem_filter.mp h).1

theorem dictSet_all_keys (P : String → Bool) (d : PyDict) (k : String)
    (v : Option String) (hd : ∀ p ∈ d, P p.1 = true) (hk : P k = true) :
    ∀ p ∈ dictSet d k v, P p.1 = true := by
  apply dictUpdate_all_keys P d [(k, v)] hd
  intro p hp
  simp only [List.mem_singleton] at hp
  rw [hp]
  exact hk

/-! ## Lemmas about reading and rewriting records -/

theorem readRow_keys (header : List String) (r : Row) :
    ∀ p ∈ readRow header r, p.1 ∈ header := by
  induction header generalizing r with
  | nil =>
    intro p hp
    cases r <;> simp [readRow] at hp
  | cons h hs ih =>
    intro p hp
    cases r with
    | nil =>
      simp only [readRow, List.mem_cons] at hp
      rcases hp with rfl | hp
      · exact List.mem_cons_self h hs
      · exact List.mem_cons_of_mem h (ih [] p hp)
    | cons c cs =>
      simp only [readRow, List.mem_cons] at hp
      rcases hp with rfl | hp
      · exact List.mem_cons_self h hs
      · exact List.mem_cons_of_mem h (ih cs p hp)

theorem cellsOf_congr (fieldnames : List String) (d d2 : PyDict)
    (h : ∀ x ∈ fieldnames, dictGet? d x = dictGet? d2 x) :
    cellsOf fieldnames d = cellsOf fieldnames d2 :=
  List.map_congr_left (fun x hx => by rw [h x hx])

theorem cellsOf_readRow (header : List String) (r : Row)
    (hlen : r.length = header.length) (hnd : header.Nodup) :
    cellsOf header (readRow header r) = r := by
  induction header generalizing r with
  | nil =>
    cases r with
    | nil => rfl
    | cons c cs => simp at hlen
  | cons h hs ih =>
    cases r with
    | nil => simp at hlen
    | cons c cs =>
      have hnotmem : h ∉ hs := (List.nodup_cons.mp hnd).1
      have htail : cellsOf hs (readRow (h :: hs) (c :: cs)) =
          cellsOf hs (readRow hs cs) := by
        apply cellsOf_congr
        intro x hx
        have hne : (h == x) = false := by
          simp only [beq_eq_false_iff_ne, ne_eq]
          intro he
          exact hnotmem (he ▸ hx)
        simp [readRow, dictGet?_cons, hne]
      have hhead : dictGet? (readRow (h :: hs) (c :: cs)) h =
          Option.some (Option.some c) := by
        simp [readRow, dictGet?_cons]
      calc cellsOf (h :: hs) (readRow (h :: hs) (c :: cs))
          = serializeCell (dictGet? (readRow (h :: hs) (c :: cs)) h) ::
            cellsOf hs (readRow (h :: hs) (c :: cs)) := rfl
        _ = c :: cs := by
            rw [hhead, htail, ih cs (by simpa using hlen)
              (List.nodup_cons.mp hnd).2]
            rfl

theorem writeDictRow_of_keys (fieldnames : List String) (d : PyDict)
    (h : ∀ p ∈ d, fieldnames.contains p.1 = true) :
    writeDictRow fieldnames d = Except.ok (cellsOf fieldnames d) := by
  unfold writeDictRow
  rw [if_pos (List.all_eq_true.mpr h)]

theorem writeDictRow_readRow (header : List String) (r : Row)
    (hlen : r.length = header.length) (hnd : header.Nodup) :
    writeDictRow header (readRow header r) = Except.ok r := by
  rw [writeDictRow_of_keys header _
    (fun p hp => List.elem_iff.mpr (readRow_keys header r p hp))]
  rw [cellsOf_readRow header r hlen hnd]

theorem rowField_of_contains (header : List String) (r : Row) (k : String)
    (h : header.contains k = true) :
    rowField header r k = Except.ok (fieldOf header r k) := by
  unfold rowField fieldOf
  cases hidx : header.findIdx? (fun x => x == k) with
  | some i => rfl
  | none =>
    exfalso
    rw [List.findIdx?_eq_none_iff] at hidx
    have := hidx k (List.elem_iff.mp h)
    simp at this

/-! ## Lemmas about the linear scan of get_row_index -/

theorem get_row_index_go_no_match (header : List String)
    (name : Option String) (rs : List Row) (c : Int)
    (hcol : header.contains "File name" = true)
    (h : ∀ r ∈ rs, fieldOf header r "File name" ≠ name) :
    get_row_index_go header name rs c = Except.ok (c + rs.length) := by
  induction rs generalizing c with
  | nil => simp [get_row_index_go]
  | cons r rs ih =>
    simp only [get_row_index_go, rowField_of_contains header r _ hcol]
    rw [if_neg (h r (List.mem_cons_self r rs))]
    rw [ih (c + 1) (fun r2 hr2 => h r2 (List.mem_cons_of_mem r hr2))]
    congr 1
    simp only [List.length_cons]
    push_cast
    ring

theorem get_row_index_go_match (header : List String)
    (name : Option String) (rs : List Row) (c : Int)
    (hcol : header.contains "File name" = true)
    (h : ∃ r ∈ rs, fieldOf header r "File name" = name) :
    get_row_index_go header name rs c = Except.ok (-1) := by
  induction rs generalizing c with
  | nil => simp at h
  | cons r rs ih =>
    simp only [get_row_index_go, rowField_of_contains header r _ hcol]
    by_cases hr : fieldOf header r "File name" = name
    · rw [if_pos hr]
    · rw [if_neg hr]
      apply ih
      obtain ⟨r0, hr0, he⟩ := h
      rcases List.mem_cons.mp hr0 with rfl | hmem
      · exact absurd he hr
      · exact ⟨r0, hmem, he⟩

/-! ## The rewrite loop of update_data_row -/

theorem update_rows_eq (header : List String) (name : Option String)
    (nd : PyDict) (rows : List Row)
    (hcol : header.contains "File name" = true)
    (hnd : header.Nodup)
    (wf : ∀ r ∈ rows, r.length = header.length)
    (hkeys : ∀ p ∈ nd, header.contains p.1 = true) :
    update_rows header name nd rows =
      (rows.map (fun r =>
        if fieldOf header r "File name" = name then
          cellsOf header (dictUpdate (readRow header r) nd)
        else r), Option.none) := by
  induction rows with
  | nil => rfl
  | cons r rs ih =>
    have hlen := wf r (List.mem_cons_self r rs)
    have hrest := ih (fun r2 hr2 => wf r2 (List.mem_cons_of_mem r hr2))
    simp only [update_rows, rowField_of_contains header r _ hcol]
    rw [if_neg (by omega : ¬ header.length < r.length)]
    by_cases hm : fieldOf header r "File name" = name
    · have hwrite : writeDictRow header (dictUpdate (readRow header r) nd) =
          Except.ok (cellsOf header (dictUpdate (readRow header r) nd)) := by
        apply writeDictRow_of_keys
        apply dictUpdate_all_keys
        · exact fun p hp => List.elem_iff.mpr (readRow_keys header r p hp)
        · exact hkeys
      simp only [hm, if_pos, if_true, hwrite, hrest]
      simp [hm]
    · simp only [hm, if_false, writeDictRow_readRow header r hlen hnd, hrest]
      simp [hm]

/-! ## Characterisations of the writing operations -/

theorem update_data_row_eq (f : CsvFile) (name : Option String) (nd : PyDict)
    (hcol : f.header.contains "File name" = true)
    (hnodup : f.header.Nodup)
    (wf : ∀ r ∈ f.rows, r.length = f.header.length)
    (hkeys : ∀ p ∈ nd, f.header.contains p.1 = true) :
    update_data_row false f name nd =
      (⟨f.header, f.rows.map (fun r =>
        if fieldOf f.header r "File name" = name then
          cellsOf f.header (dictUpdate (readRow f.header r) nd)
        else r)⟩, Option.none) := by
  unfold update_data_row
  rw [if_neg (by simp),
    update_rows_eq f.header name nd f.rows hcol hnodup wf hkeys]

theorem add_data_row_eq (f : CsvFile) (d : PyDict)
    (h : ∀ p ∈ d, csv_headers.contains p.1 = true) :
    add_data_row false f d =
      (⟨f.header, f.rows ++ [cellsOf csv_headers d]⟩, Option.none) := by
  unfold add_data_row
  rw [if_neg (by simp), writeDictRow_of_keys csv_headers d h]

theorem add_data_row_dev_eq (f : CsvFile) (d : PyDict)
    (fn mat q : Option String) (n : Int)
    (hfn : dictGet? d "File name" = Option.some fn)
    (hmat : dictGet? d "Material" = Option.some mat)
    (hq : dictGet? d "Quantity" = Option.some q)
    (hint : pyInt q = Option.some n)
    (hkeys : ∀ p ∈ d, csv_headers_dev.contains p.1 = true) :
    add_data_row_dev false f d =
      (⟨f.header, f.rows ++ [cellsOf csv_headers_dev d]⟩, Option.none) := by
  unfold add_data_row_dev
  simp only [hfn, hmat, hq, hint]
  rw [if_neg (by simp), writeDictRow_of_keys csv_headers_dev d hkeys]

theorem cellsOf_dictUpdate_covered (header : List String) (d nd : PyDict)
    (hcov : ∀ k ∈ header, ∃ v, dictGet? nd k = Option.some v) :
    cellsOf header (dictUpdate d nd) = cellsOf header nd := by
  apply cellsOf_congr
  intro x hx
  obtain ⟨v, hv⟩ := hcov x hx
  simp [dictGet?_dictUpdate, hv]

theorem strEndsWith_append (s t : String) : strEndsWith (s ++ t) t = true := by
  unfold strEndsWith
  rw [show (s ++ t).data = s.data ++ t.data from by simp]
  simp [ List.isSuffixOf, List.isPrefixOf_iff_prefix, List.reverse_prefix,
    List.suffix_append]

/-! ## The claims -/

/-- C2: for every CSV file (with a 'File name' column) and every search
name, `get_row_index` scans the data rows linearly in file order and
returns `-1` when a row's 'File name' field equals the given name; if no
data row matches, it returns the total number of data rows in the file
(the last index plus one). -/
theorem C2_get_row_index_scan (f : CsvFile) (name : Option String)
    (hcol : f.header.contains "File name" = true) :
    ((∃ r ∈ f.rows, fieldOf f.header r "File name" = name) →
      get_row_index f name = Except.ok (-1)) ∧
    ((∀ r ∈ f.rows, fieldOf f.header r "File name" ≠ name) →
      get_row_index f name = Except.ok (f.rows.length : Int)) := by
  constructor
  · intro h
    exact get_row_index_go_match f.header name f.rows 0 hcol h
  · intro h
    rw [get_row_index,
      get_row_index_go_no_match f.header name f.rows 0 hcol h]
    simp

/-- Witness for C2: on a file with rows keyed `"a"`, `"b"`, searching
`"b"` yields `-1` and searching the absent `"z"` yields the row count 2. -/
theorem C2_witness :
    get_row_index ⟨["File name", "Material"], [["a", "m"], ["b", "n"]]⟩
      (Option.some "b") = Except.ok (-1) ∧
    get_row_index ⟨["File name", "Material"], [["a", "m"], ["b", "n"]]⟩
      (Option.some "z") = Except.ok 2 := by
  constructor
  · exact (C2_get_row_index_scan
      ⟨["File name", "Material"], [["a", "m"], ["b", "n"]]⟩
      (Option.some "b") (by decide)).1 (by decide)
  · exact (C2_get_row_index_scan
      ⟨["File name", "Material"], [["a", "m"], ["b", "n"]]⟩
      (Option.some "z") (by decide)).2 (by decide)

/-- C9: on a file whose every data row has a (possibly empty) string value
in the 'File name' column, `get_row_index` with the name argument omitted
(`None`) never returns `-1`: it returns the number of data rows, so the
startup check of the command cannot take the update branch of the
sentinel. -/
theorem C9_none_never_matches (f : CsvFile)
    (hcol : f.header.contains "File name" = true)
    (hstr : ∀ r ∈ f.rows, ∃ s,
      fieldOf f.header r "File name" = Option.some s) :
    get_row_index f Option.none = Except.ok (f.rows.length : Int) ∧
    get_row_index f Option.none ≠ Except.ok (-1) := by
  have h : ∀ r ∈ f.rows, fieldOf f.header r "File name" ≠ Option.none := by
    intro r hr
    obtain ⟨s, hs⟩ := hstr r hr
    simp [hs]
  have hval : get_row_index f Option.none =
      Except.ok (f.rows.length : Int) := by
    rw [get_row_index,
      get_row_index_go_no_match f.header Option.none f.rows 0 hcol h]
    simp
  refine ⟨hval, ?_⟩
  rw [hval]
  intro hc
  have hlen : (f.rows.length : Int) = -1 := by
    simp at hc
  omega

/-- Witness for C9: a two-row file, one 'File name' value even empty. -/
theorem C9_witness :
    get_row_index ⟨["File name"], [["a"], [""]]⟩ Option.none =
      Except.ok 2 ∧
    get_row_index ⟨["File name"], [["a"], [""]]⟩ Option.none ≠
      Except.ok (-1) := by
  have h := C9_none_never_matches ⟨["File name"], [["a"], [""]]⟩
    (by decide)
    (by
      intro r hr
      simp only [List.mem_cons, List.not_mem_nil, or_false] at hr
      rcases hr with rfl | rfl
      · exact ⟨"a", rfl⟩
      · exact ⟨"", rfl⟩)
  exact h

/-- C3: on a well-formed CSV file containing exactly one data row whose
'File name' field equals the given name, `update_data_row` rewrites the
file as the header followed by all original data rows in their original
order, where that one row has its fields replaced by the values of
`new_data` (which, as built by `create_data_dict`, carries a value for
every column). -/
theorem C3_update_replaces_matching_row (f : CsvFile) (name : Option String)
    (nd : PyDict) (A B : List Row) (r0 : Row)
    (hrows : f.rows = A ++ r0 :: B)
    (hcol : f.header.contains "File name" = true)
    (hnodup : f.header.Nodup)
    (wf : ∀ r ∈ f.rows, r.length = f.header.length)
    (hkeys : ∀ p ∈ nd, f.header.contains p.1 = true)
    (hcov : ∀ k ∈ f.header, ∃ v, dictGet? nd k = Option.some v)
    (hm : fieldOf f.header r0 "File name" = name)
    (hA : ∀ r ∈ A, fieldOf f.header r "File name" ≠ name)
    (hB : ∀ r ∈ B, fieldOf f.header r "File name" ≠ name) :
    update_data_row false f name nd =
      (⟨f.header, A ++ cellsOf f.header nd :: B⟩, Option.none) := by
  rw [update_data_row_eq f name nd hcol hnodup wf hkeys]
  rw [Prod.mk.injEq]
  refine ⟨?_, rfl⟩
  rw [CsvFile.mk.injEq]
  refine ⟨rfl, ?_⟩
  rw [hrows, List.map_append, List.map_cons]
  have hAmap : A.map (fun r =>
      if fieldOf f.header r "File name" = name then
        cellsOf f.header (dictUpdate (readRow f.header r) nd)
      else r) = A := by
    rw [List.map_congr_left (fun r hr => if_neg (hA r hr))]
    exact List.map_id A
  have hBmap : B.map (fun r =>
      if fieldOf f.header r "File name" = name then
        cellsOf f.header (dictUpdate (readRow f.header r) nd)
      else r) = B := by
    rw [List.map_congr_left (fun r hr => if_neg (hB r hr))]
    exact List.map_id B
  rw [hAmap, hBmap, if_pos hm,
    cellsOf_dictUpdate_covered f.header (readRow f.header r0) nd hcov]

/-- Witness for C3: updating the row keyed "b" of a two-row file replaces
exactly that row with the new values and keeps the row keyed "a". -/
theorem C3_witness :
    update_data_row false
      ⟨["File name", "Material"], [["a", "m"], ["b", "n"]]⟩
      (Option.some "b")
      [("File name", Option.some "b"), ("Material", Option.some "x")] =
    (⟨["File name", "Material"], [["a", "m"], ["b", "x"]]⟩,
      Option.none) := by
  have h := C3_update_replaces_matching_row
    ⟨["File name", "Material"], [["a", "m"], ["b", "n"]]⟩
    (Option.some "b")
    [("File name", Option.some "b"), ("Material", Option.some "x")]
    [["a", "m"]] [] ["b", "n"]
    rfl (by decide) (by decide) (by decide) (by decide)
    (by
      intro k hk
      simp only [List.mem_cons, List.not_mem_nil, or_false] at hk
      rcases hk with rfl | rfl
      · exact ⟨Option.some "b", rfl⟩
      · exact ⟨Option.some "x", rfl⟩)
    (by decide) (by decide) (by decide)
  simpa using h

/-- C4: on a well-formed CSV file, `update_data_row` leaves every data row
whose 'File name' field differs from the given name unchanged: the
rewritten file has the same header, the same number of data rows, the
same row order, and identical cells in all non-matching rows. -/
theorem C4_update_preserves_nonmatching (f : CsvFile)
    (name : Option String) (nd : PyDict)
    (hcol : f.header.contains "File name" = true)
    (hnodup : f.header.Nodup)
    (wf : ∀ r ∈ f.rows, r.length = f.header.length)
    (hkeys : ∀ p ∈ nd, f.header.contains p.1 = true) :
    (update_data_row false f name nd).2 = Option.none ∧
    (update_data_row false f name nd).1.header = f.header ∧
    (update_data_row false f name nd).1.rows.length = f.rows.length ∧
    ∀ (i : Nat) (r : Row), f.rows[i]? = Option.some r →
      fieldOf f.header r "File name" ≠ name →
      (update_data_row false f name nd).1.rows[i]? = Option.some r := by
  rw [update_data_row_eq f name nd hcol hnodup wf hkeys]
  refine ⟨rfl, rfl, by simp, ?_⟩
  intro i r hi hne
  simp only [List.getElem?_map, hi, Option.map_some']
  rw [if_neg hne]

/-- Witness for C4: updating key "b" leaves the non-matching row 0 (keyed
"a") unchanged, with the header and the row count preserved. -/
theorem C4_witness :
    (update_data_row false
      ⟨["File name", "Material"], [["a", "m"], ["b", "n"]]⟩
      (Option.some "b")
      [("File name", Option.some "b"),
        ("Material", Option.some "x")]).2 = Option.none ∧
    (update_data_row false
      ⟨["File name", "Material"], [["a", "m"], ["b", "n"]]⟩
      (Option.some "b")
      [("File name", Option.some "b"),
        ("Material", Option.some "x")]).1.rows[0]? =
      Option.some ["a", "m"] := by
  have h := C4_update_preserves_nonmatching
    ⟨["File name", "Material"], [["a", "m"], ["b", "n"]]⟩
    (Option.some "b")
    [("File name", Option.some "b"), ("Material", Option.some "x")]
    (by decide) (by decide) (by decide) (by decide)
  exact ⟨h.1, h.2.2.2 0 ["a", "m"] rfl (by decide)⟩

/-- C6: a successful `add_data_row` (either copy) appends exactly one new
record at the end of the file, holding the dictionary's values in
`csv_headers` column order, and leaves the header and all earlier records
unchanged (the file is opened in append mode). -/
theorem C6_add_appends_one_row (f : CsvFile) (d : PyDict) (f2 : CsvFile) :
    (add_data_row false f d = (f2, Option.none) →
      f2.header = f.header ∧
      f2.rows = f.rows ++ [cellsOf csv_headers d]) ∧
    (add_data_row_dev false f d = (f2, Option.none) →
      f2.header = f.header ∧
      f2.rows = f.rows ++ [cellsOf csv_headers_dev d]) := by
  constructor
  · intro h
    unfold add_data_row at h
    rw [if_neg (by simp)] at h
    unfold writeDictRow at h
    by_cases hall : d.all (fun p => csv_headers.contains p.1) = true
    · rw [if_pos hall] at h
      rw [Prod.mk.injEq] at h
      rw [← h.1]
      exact ⟨rfl, rfl⟩
    · rw [if_neg hall] at h
      simp at h
  · intro h
    unfold add_data_row_dev at h
    cases h1 : dictGet? d "File name" with
    | none => simp only [h1] at h; simp at h
    | some fn =>
      simp only [h1] at h
      cases h2 : dictGet? d "Material" with
      | none => simp only [h2] at h; simp at h
      | some mat =>
        simp only [h2] at h
        cases h3 : dictGet? d "Quantity" with
        | none => simp only [h3] at h; simp at h
        | some q =>
          simp only [h3] at h
          cases h4 : pyInt q with
          | none => simp only [h4] at h; simp at h
          | some n =>
            simp only [h4] at h
            rw [if_neg (by simp)] at h
            unfold writeDictRow at h
            by_cases hall : d.all (fun p => csv_headers_dev.contains p.1) = true
            · rw [if_pos hall] at h
              rw [Prod.mk.injEq] at h
              rw [← h.1]
              exact ⟨rfl, rfl⟩
            · rw [if_neg hall] at h
              simp at h

/-- Witness for C6: appending to a one-row file yields the original row
followed by the new serialised record, in both copies. -/
theorem C6_witness :
    (⟨csv_headers, [cellsOf csv_headers [],
        cellsOf csv_headers [("File name", Option.some "z")]]⟩ :
      CsvFile).rows =
      (⟨csv_headers, [cellsOf csv_headers []]⟩ : CsvFile).rows ++
        [cellsOf csv_headers [("File name", Option.some "z")]] ∧
    (⟨csv_headers_dev,
        [cellsOf csv_headers_dev
          [("File name", Option.some "z"), ("Material", Option.some "m"),
            ("Quantity", Option.some "2")]]⟩ : CsvFile).rows =
      (⟨csv_headers_dev, []⟩ : CsvFile).rows ++
        [cellsOf csv_headers_dev
          [("File name", Option.some "z"), ("Material", Option.some "m"),
            ("Quantity", Option.some "2")]] := by
  constructor
  · exact ((C6_add_appends_one_row
      ⟨csv_headers, [cellsOf csv_headers []]⟩
      [("File name", Option.some "z")]
      ⟨csv_headers, [cellsOf csv_headers [],
        cellsOf csv_headers [("File name", Option.some "z")]]⟩).1
      (by rfl)).2
  · exact ((C6_add_appends_one_row ⟨csv_headers_dev, []⟩
      [("File name", Option.some "z"), ("Material", Option.some "m"),
        ("Quantity", Option.some "2")]
      ⟨csv_headers_dev,
        [cellsOf csv_headers_dev
          [("File name", Option.some "z"), ("Material", Option.some "m"),
            ("Quantity", Option.some "2")]]⟩).2 (by rfl)).2

/-- C8: `create_new_csv` (either copy) never overwrites existing data:
when a file exists at the path it only prints and returns with the file
unchanged; only when no file exists does it create one, containing
exactly the headers row and no data rows. -/
theorem C8_create_never_overwrites :
    (∀ (f : CsvFile) (io : Bool),
      create_new_csv (Option.some f) io = (Option.some f, Option.none)) ∧
    (create_new_csv Option.none false =
      (Option.some ⟨csv_headers, []⟩, Option.none)) ∧
    (∀ (f : CsvFile) (io : Bool),
      create_new_csv_dev (Option.some f) io =
        (Option.some f, Option.none)) ∧
    (create_new_csv_dev Option.none false =
      (Option.some ⟨csv_headers_dev, []⟩, Option.none)) :=
  ⟨fun _ _ => rfl, rfl, fun _ _ => rfl, rfl⟩

/-- C5 counterexample: `get_row_index` has no `try`/`except` at all, so an
`IOError` raised by `open` propagates to the caller instead of being
caught and printed. -/
theorem C5_counterexample :
    get_row_index_io (Except.error "IOError") Option.none =
      Except.error "IOError" := rfl

/-- C5 (amended): `create_new_csv`, `add_data_row` and `update_data_row`
catch `IOError` and return normally (the dev `add_data_row` may still
raise its pre-open validation errors, never the `IOError` itself), and
the root `read_project_data` catches it and returns `None`; but
`get_row_index` has no handler and propagates the `IOError`, and the dev
`read_project_data` re-raises it after printing. -/
theorem C5_amended_io_errors :
    (∀ (fs : Option CsvFile) (io : Bool),
      (create_new_csv fs io).2 = Option.none) ∧
    (∀ (fs : Option CsvFile) (io : Bool),
      (create_new_csv_dev fs io).2 = Option.none) ∧
    (∀ (f : CsvFile) (d : PyDict),
      add_data_row true f d = (f, Option.none)) ∧
    (∀ (f : CsvFile) (d : PyDict),
      (add_data_row_dev true f d).2 = Option.none ∨
      (add_data_row_dev true f d).2 = Option.some "KeyError" ∨
      (add_data_row_dev true f d).2 = Option.some "TypeError") ∧
    (∀ (f : CsvFile) (name : Option String) (nd : PyDict),
      update_data_row true f name nd = (f, Option.none)) ∧
    (read_project_data (Except.error "IOError") = Except.ok Option.none) ∧
    (∀ name : Option String,
      get_row_index_io (Except.error "IOError") name =
        Except.error "IOError") ∧
    (read_project_data_dev (Except.error "IOError") =
      Except.error "IOError") := by
  refine ⟨?_, ?_, fun _ _ => rfl, ?_, fun _ _ _ => rfl, rfl, fun _ => rfl,
    rfl⟩
  · intro fs io
    cases fs with
    | some f => rfl
    | none => cases io <;> rfl
  · intro fs io
    cases fs with
    | some f => rfl
    | none => cases io <;> rfl
  · intro f d
    unfold add_data_row_dev
    cases h1 : dictGet? d "File name" with
    | none => simp [h1]
    | some fn =>
      cases h2 : dictGet? d "Material" with
      | none => simp [h1, h2]
      | some mat =>
        cases h3 : dictGet? d "Quantity" with
        | none => simp [h1, h2, h3]
        | some q =>
          cases h4 : pyInt q with
          | none => simp [h1, h2, h3, h4]
          | some n => simp [h1, h2, h3, h4]

/-- C10: the dev `add_data_row` validates its input before touching the
file: whenever the 'Quantity' value is not convertible to an integer (for
example `None`), the call raises before the CSV file is opened for
writing, and the file contents are unchanged. -/
theorem C10_dev_add_validates_first (f : CsvFile) (d : PyDict)
    (q : Option String)
    (hq : dictGet? d "Quantity" = Option.some q)
    (hbad : pyInt q = Option.none) :
    ∃ e : PyExc, ∀ io : Bool, add_data_row_dev io f d =
      (f, Option.some e) := by
  unfold add_data_row_dev
  cases h1 : dictGet? d "File name" with
  | none => simp only [h1]; exact ⟨"KeyError", fun _ => rfl⟩
  | some fn =>
    simp only [h1]
    cases h2 : dictGet? d "Material" with
    | none => simp only [h2]; exact ⟨"KeyError", fun _ => rfl⟩
    | some mat =>
      simp only [h2, hq, hbad]
      exact ⟨"TypeError", fun _ => rfl⟩

/-- Witness for C10: a dictionary whose 'Quantity' is `None` makes the dev
`add_data_row` raise with the file unchanged. -/
theorem C10_witness :
    ∃ e : PyExc, ∀ io : Bool,
      add_data_row_dev io ⟨csv_headers_dev, []⟩
        [("File name", Option.some "x"), ("Material", Option.some "m"),
          ("Quantity", Option.none)] =
      (⟨csv_headers_dev, []⟩, Option.some e) :=
  C10_dev_add_validates_first ⟨csv_headers_dev, []⟩
    [("File name", Option.some "x"), ("Material", Option.some "m"),
      ("Quantity", Option.none)]
    Option.none (by rfl) (by rfl)

/-- C7 counterexample: the dev extension menu also offers 3MF, so a user
selection hands the host export command a filename ending in `.3mf`,
outside the claimed STEP/DXF/STL set. -/
theorem C7_counterexample :
    get_export_extension (Option.some "3MF") = Option.some ".3mf" ∧
    strEndsWith (create_filename_dev "DM-GDN03-220050" "part" ".3mf")
      ".3mf" = true ∧
    (strEndsWith (create_filename_dev "DM-GDN03-220050" "part" ".3mf")
        ".stp" ||
      strEndsWith (create_filename_dev "DM-GDN03-220050" "part" ".3mf")
        ".step" ||
      strEndsWith (create_filename_dev "DM-GDN03-220050" "part" ".3mf")
        ".dxf" ||
      strEndsWith (create_filename_dev "DM-GDN03-220050" "part" ".3mf")
        ".stl") = false :=
  ⟨rfl, rfl, rfl⟩

/-- C7 (amended): every selectable extension of the dev command is one of
`.dxf`, `.step`, `.3mf`, `.stl`, and the exported filename ends in the
selected extension; the root command always hands a filename ending in
`.stp` to the host export command. -/
theorem C7_amended_extensions (sel ext : String)
    (h : get_export_extension (Option.some sel) = Option.some ext) :
    (ext = ".dxf" ∨ ext = ".step" ∨ ext = ".3mf" ∨ ext = ".stl") ∧
    (∀ p n : String,
      strEndsWith (create_filename_dev p n ext) ext = true) ∧
    (∀ p n : String, strEndsWith (create_filename p n) ".stp" = true) := by
  refine ⟨?_, fun p n => strEndsWith_append (p ++ "_" ++ n) ext,
    fun p n => strEndsWith_append (p ++ "_" ++ n) ".stp"⟩
  simp only [get_export_extension] at h
  cases hf : List.find? (fun p => p.1 == sel) extension_dict with
  | none => rw [hf] at h; simp at h
  | some pr =>
    rw [hf] at h
    simp only [Option.map_some'] at h
    have hmem := List.mem_of_find?_eq_some hf
    unfold extension_dict at hmem
    simp only [List.mem_cons, List.not_mem_nil, or_false] at hmem
    rcases hmem with rfl | rfl | rfl | rfl <;>
      injection h with h2 <;> subst h2 <;> simp

/-- Witness for C7 (amended): selecting DXF yields `.dxf` and both
commands produce filenames with the stated extensions. -/
theorem C7_witness :
    strEndsWith (create_filename_dev "DM-GDN03-220050" "part" ".dxf")
      ".dxf" = true ∧
    strEndsWith (create_filename "DM-GDN00-000000" "part") ".stp" = true := by
  have h := C7_amended_extensions "DXF" ".dxf" (by rfl)
  exact ⟨h.2.1 "DM-GDN03-220050" "part", h.2.2 "DM-GDN00-000000" "part"⟩

/-- C1 counterexample: the root copy of the command does not decide
between append and update by the filename key: on a file already holding
a data row whose 'File name' equals the derived filename, its loop body
still reaches `add_data_row` and appends a second row, and
`update_data_row` is never called. -/
theorem C1_counterexample :
    fieldOf csv_headers
      (cellsOf csv_headers
        [("File name", Option.some "DM-GDN00-000000_part.stp")])
      "File name" = Option.some "DM-GDN00-000000_part.stp" ∧
    (runIteration_root
      ⟨csv_headers, [cellsOf csv_headers
        [("File name", Option.some "DM-GDN00-000000_part.stp")]]⟩
      [] "1.00 * 2.00 * 3.00" "DM-GDN00-000000_part.stp"
      (Option.some "SolidPro") (Option.some "1.0")).action =
      Option.some CsvAction.append ∧
    (runIteration_root
      ⟨csv_headers, [cellsOf csv_headers
        [("File name", Option.some "DM-GDN00-000000_part.stp")]]⟩
      [] "1.00 * 2.00 * 3.00" "DM-GDN00-000000_part.stp"
      (Option.some "SolidPro") (Option.some "1.0")).file.rows.length = 2 :=
  ⟨rfl, rfl, rfl⟩

/-- C1 (amended): only the dev copy of the command decides between append
and update by matching the derived filename key: when `get_row_index`
returns `-1` (a data row's 'File name' equals the derived filename) its
loop body calls `update_data_row` on that filename and appends no new
row, and otherwise `add_data_row` appends exactly one new row. The root
copy calls `get_row_index` without a name and, whenever the scan
succeeds, calls `add_data_row` unconditionally: it never calls
`update_data_row`. -/
theorem C1_amended_record_identity (f : CsvFile) (data_dict : PyDict)
    (dims filename material quantity ptype : String)
    (hheader : f.header = csv_headers_dev)
    (wf : ∀ r ∈ f.rows, r.length = f.header.length)
    (hdd : ∀ p ∈ data_dict, csv_headers_dev.contains p.1 = true)
    (hq : ∃ n : Int, pyInt (Option.some quantity) = Option.some n) :
    (get_row_index f (Option.some filename) = Except.ok (-1) →
      (runIteration_dev f data_dict dims filename material quantity
          ptype).action = Option.some CsvAction.update ∧
      (runIteration_dev f data_dict dims filename material quantity
          ptype).exc = Option.none ∧
      (runIteration_dev f data_dict dims filename material quantity
          ptype).file.rows.length = f.rows.length) ∧
    (∀ idx : Int, get_row_index f (Option.some filename) = Except.ok idx →
      idx ≠ -1 →
      (runIteration_dev f data_dict dims filename material quantity
          ptype).action = Option.some CsvAction.append ∧
      (runIteration_dev f data_dict dims filename material quantity
          ptype).exc = Option.none ∧
      (runIteration_dev f data_dict dims filename material quantity
          ptype).file.rows.length = f.rows.length + 1) ∧
    (∀ (f2 : CsvFile) (dd2 : PyDict) (dims2 fn2 : String)
        (mat2 qty2 : Option String),
      (runIteration_root f2 dd2 dims2 fn2 mat2 qty2).action ≠
        Option.some CsvAction.update) := by
  have hcol : f.header.contains "File name" = true := by
    rw [hheader]; decide
  have hnodup : f.header.Nodup := by
    rw [hheader]; decide
  have hk1 : ∀ p ∈ dictSet data_dict "Sizes" (Option.some dims),
      csv_headers_dev.contains p.1 = true :=
    dictSet_all_keys _ _ _ _ hdd (by decide)
  have hk2 : ∀ p ∈ dictSet (dictSet data_dict "Sizes" (Option.some dims))
      "File name" (Option.some filename),
      csv_headers_dev.contains p.1 = true :=
    dictSet_all_keys _ _ _ _ hk1 (by decide)
  have hk3 : ∀ p ∈ dictSet (dictSet (dictSet data_dict "Sizes"
      (Option.some dims)) "File name" (Option.some filename))
      "Material" (Option.some material),
      csv_headers_dev.contains p.1 = true :=
    dictSet_all_keys _ _ _ _ hk2 (by decide)
  have hk4 : ∀ p ∈ dictSet (dictSet (dictSet (dictSet data_dict "Sizes"
      (Option.some dims)) "File name" (Option.some filename))
      "Material" (Option.some material)) "Quantity"
      (Option.some quantity),
      csv_headers_dev.contains p.1 = true :=
    dictSet_all_keys _ _ _ _ hk3 (by decide)
  have hk5 : ∀ p ∈ dictSet (dictSet (dictSet (dictSet (dictSet data_dict
      "Sizes" (Option.some dims)) "File name" (Option.some filename))
      "Material" (Option.some material)) "Quantity"
      (Option.some quantity)) "Type" (Option.some ptype),
      csv_headers_dev.contains p.1 = true :=
    dictSet_all_keys _ _ _ _ hk4 (by decide)
  have hkeys5 : ∀ p ∈ dictSet (dictSet (dictSet (dictSet (dictSet
      data_dict "Sizes" (Option.some dims)) "File name"
      (Option.some filename)) "Material" (Option.some material))
      "Quantity" (Option.some quantity)) "Type" (Option.some ptype),
      f.header.contains p.1 = true := by
    rw [hheader]; exact hk5
  refine ⟨?_, ?_, ?_⟩
  · intro hm
    have hstep : runIteration_dev f data_dict dims filename material
        quantity ptype =
        ⟨(update_data_row false f (Option.some filename)
            (dictSet (dictSet (dictSet (dictSet (dictSet data_dict
              "Sizes" (Option.some dims)) "File name"
              (Option.some filename)) "Material" (Option.some material))
              "Quantity" (Option.some quantity)) "Type"
              (Option.some ptype))).1,
          (update_data_row false f (Option.some filename)
            (dictSet (dictSet (dictSet (dictSet (dictSet data_dict
              "Sizes" (Option.some dims)) "File name"
              (Option.some filename)) "Material" (Option.some material))
              "Quantity" (Option.some quantity)) "Type"
              (Option.some ptype))).2,
          Option.some CsvAction.update⟩ := by
      simp only [runIteration_dev, hm]
      try exact rfl
    rw [hstep,
      update_data_row_eq f (Option.some filename) _ hcol hnodup wf hkeys5]
    refine ⟨rfl, rfl, ?_⟩
    simp
  · intro idx hidx hne
    obtain ⟨n, hn⟩ := hq
    have hstep : runIteration_dev f data_dict dims filename material
        quantity ptype =
        ⟨(add_data_row_dev false f
            (dictSet (dictSet (dictSet (dictSet (dictSet (dictSet
              data_dict "Sizes" (Option.some dims)) "File name"
              (Option.some filename)) "Material" (Option.some material))
              "Quantity" (Option.some quantity)) "Type"
              (Option.some ptype)) "Row"
              (Option.some (toString idx)))).1,
          (add_data_row_dev false f
            (dictSet (dictSet (dictSet (dictSet (dictSet (dictSet
              data_dict "Sizes" (Option.some dims)) "File name"
              (Option.some filename)) "Material" (Option.some material))
              "Quantity" (Option.some quantity)) "Type"
              (Option.some ptype)) "Row"
              (Option.some (toString idx)))).2,
          Option.some CsvAction.append⟩ := by
      simp only [runIteration_dev, hidx]
      rw [if_neg hne]
      try exact rfl
    have hfn : dictGet? (dictSet (dictSet (dictSet (dictSet (dictSet
        (dictSet data_dict "Sizes" (Option.some dims)) "File name"
        (Option.some filename)) "Material" (Option.some material))
        "Quantity" (Option.some quantity)) "Type" (Option.some ptype))
        "Row" (Option.some (toString idx))) "File name" =
        Option.some (Option.some filename) := by
      rw [dictGet?_dictSet_of_ne _ _ _ _ (by decide),
        dictGet?_dictSet_of_ne _ _ _ _ (by decide),
        dictGet?_dictSet_of_ne _ _ _ _ (by decide),
        dictGet?_dictSet_of_ne _ _ _ _ (by decide),
        dictGet?_dictSet_self]
    have hmat : dictGet? (dictSet (dictSet (dictSet (dictSet (dictSet
        (dictSet data_dict "Sizes" (Option.some dims)) "File name"
        (Option.some filename)) "Material" (Option.some material))
        "Quantity" (Option.some quantity)) "Type" (Option.some ptype))
        "Row" (Option.some (toString idx))) "Material" =
        Option.some (Option.some material) := by
      rw [dictGet?_dictSet_of_ne _ _ _ _ (by decide),
        dictGet?_dictSet_of_ne _ _ _ _ (by decide),
        dictGet?_dictSet_of_ne _ _ _ _ (by decide),
        dictGet?_dictSet_self]
    have hqty : dictGet? (dictSet (dictSet (dictSet (dictSet (dictSet
        (dictSet data_dict "Sizes" (Option.some dims)) "File name"
        (Option.some filename)) "Material" (Option.some material))
        "Quantity" (Option.some quantity)) "Type" (Option.some ptype))
        "Row" (Option.some (toString idx))) "Quantity" =
        Option.some (Option.some quantity) := by
      rw [dictGet?_dictSet_of_ne _ _ _ _ (by decide),
        dictGet?_dictSet_of_ne _ _ _ _ (by decide),
        dictGet?_dictSet_self]
    have hkeys6 : ∀ p ∈ dictSet (dictSet (dictSet (dictSet (dictSet
        (dictSet data_dict "Sizes" (Option.some dims)) "File name"
        (Option.some filename)) "Material" (Option.some material))
        "Quantity" (Option.some quantity)) "Type" (Option.some ptype))
        "Row" (Option.some (toString idx)),
        csv_headers_dev.contains p.1 = true :=
      dictSet_all_keys _ _ _ _ hk5 (by decide)
    rw [hstep, add_data_row_dev_eq f _ (Option.some filename)
      (Option.some material) (Option.some quantity) n hfn hmat hqty hn
      hkeys6]
    refine ⟨rfl, rfl, ?_⟩
    simp
  · intro f2 dd2 dims2 fn2 mat2 qty2
    unfold runIteration_root
    cases hgr : get_row_index f2 Option.none with
    | error e => simp
    | ok idx =>
      intro hc
      have haction : (match add_data_row false f2 (dictSet (dictSet
          (dictSet (dictSet (dictSet dd2 "Row"
          (Option.some (toString idx))) "Sizes" (Option.some dims2))
          "File name" (Option.some fn2)) "Material" mat2) "Quantity"
          qty2) with
          | (fOut, exc) =>
            (⟨fOut, exc, Option.some CsvAction.append⟩ : IterResult)).action
          = Option.some CsvAction.append := rfl
      rw [haction] at hc
      simp at hc

/-- Witness for C1 (amended): on a dev-format file already holding the
derived filename, the dev loop body updates in place keeping one row,
while a root loop pass never yields the update action. -/
theorem C1_witness :
    (runIteration_dev
      ⟨csv_headers_dev, [cellsOf csv_headers_dev
        [("File name", Option.some "DM-GDN03-220050_part.step")]]⟩
      [] "1.00 * 2.00 * 3.00" "DM-GDN03-220050_part.step" "SolidPro" "1"
      "Pilot").action = Option.some CsvAction.update ∧
    (runIteration_dev
      ⟨csv_headers_dev, [cellsOf csv_headers_dev
        [("File name", Option.some "DM-GDN03-220050_part.step")]]⟩
      [] "1.00 * 2.00 * 3.00" "DM-GDN03-220050_part.step" "SolidPro" "1"
      "Pilot").file.rows.length = 1 ∧
    (runIteration_root ⟨csv_headers, []⟩ [] "1.00 * 1.00 * 1.00" "x.stp"
      (Option.some "m") (Option.some "1.0")).action ≠
      Option.some CsvAction.update := by
  have h := C1_amended_record_identity
    ⟨csv_headers_dev, [cellsOf csv_headers_dev
      [("File name", Option.some "DM-GDN03-220050_part.step")]]⟩
    [] "1.00 * 2.00 * 3.00" "DM-GDN03-220050_part.step" "SolidPro" "1"
    "Pilot" rfl (by decide) (by decide) ⟨1, rfl⟩
  exact ⟨(h.1 (by rfl)).1, (h.1 (by rfl)).2.2,
    h.2.2 ⟨csv_headers, []⟩ [] "1.00 * 1.00 * 1.00" "x.stp"
      (Option.some "m") (Option.some "1.0")⟩
